import Mathlib

/-!
Verification of `bidsmosaic/mosaic.py` (the BIDS mosaic PDF generator).

The Python source is shallowly embedded below.  Paths and filenames are
modelled as `List Char` (Python strings), the opaque collaborators
(nibabel's loader, matplotlib's renderer, json, the filesystem) are
parameters of the embedded functions, and the observable effects of a run
(png files written, errors logged, the output document written, the
temporary directory cleaned up) are collected as explicit event traces.
-/

namespace BidsMosaic

/-! ### Character-level string and path operations (Python `str`/`os.path`) -/

/-- Python `s.replace(old, new)` for one-character patterns: a pointwise
character map. -/
def replChar (old new : Char) (s : List Char) : List Char :=
  s.map (fun c => if c = old then new else c)

/-- Python `os.path.basename`: the characters after the last `'/'`. -/
def basenameChars (s : List Char) : List Char :=
  (s.reverse.takeWhile (fun c => c ≠ '/')).reverse

/-- The `".png"` extension that `create_slice_img` appends. -/
def pngExt : List Char := ['.', 'p', 'n', 'g']

/-- mosaic.py line 56: `relpath.replace("/", ":") + ".png"` — the output
filename the renderer derives from a path relative to the dataset root. -/
def encodeRel (rel : List Char) : List Char :=
  replChar '/' ':' rel ++ pngExt

/-- Python `str.removesuffix`: drop `suf` from the end of `s` when `s` ends
with it, otherwise return `s` unchanged. -/
def removeSuffix (suf s : List Char) : List Char :=
  if suf.length ≤ s.length ∧ s.drop (s.length - suf.length) = suf then
    s.take (s.length - suf.length)
  else s

/-- One step of `os.path.normpath` component resolution for relative paths:
empty and `"."` components vanish, `".."` pops the previous component when
possible, anything else is kept. -/
def normStep (acc : List (List Char)) (c : List Char) : List (List Char) :=
  if c = [] ∨ c = ['.'] then acc
  else if c = ['.', '.'] then
    if acc = [] ∨ acc.getLast? = some ['.', '.'] then acc ++ [c]
    else acc.dropLast
  else acc ++ [c]

/-- Models `os.path.relpath(s)` for a relative path `s` (as used by
`create_filename_caption`): split on `'/'`, resolve the components as
`normpath` does, and rejoin, `"."` when nothing remains. -/
def relpathNorm (s : List Char) : List Char :=
  let comps := (s.splitOn '/').foldl normStep []
  if comps = [] then ['.'] else List.intercalate ['/'] comps

/-- Drop the longest common leading run of two component lists. -/
def dropCommon : List (List Char) → List (List Char) →
    List (List Char) × List (List Char)
  | a :: as, b :: bs =>
    if a = b then dropCommon as bs else (a :: as, b :: bs)
  | as, bs => (as, bs)

/-- Models `os.path.relpath(p, start)` for two paths resolved against the
same working directory: normalise both, drop the common leading components,
climb with `".."` once per remaining `start` component. -/
def relpathFrom (p start : List Char) : List Char :=
  let pc := (p.splitOn '/').foldl normStep []
  let sc := (start.splitOn '/').foldl normStep []
  let pr := (dropCommon pc sc).1
  let sr := (dropCommon pc sc).2
  let rel := List.replicate sr.length ['.', '.'] ++ pr
  if rel = [] then ['.'] else List.intercalate ['/'] rel

/-- mosaic.py `create_filename_caption`: take the basename of the png path,
restore `':'` to `'/'`, normalise via `os.path.relpath`, and strip the
`".png"` suffix. -/
def create_filename_caption (fname : String) : String :=
  ⟨removeSuffix pngExt (relpathNorm (replChar ':' '/' (basenameChars fname.data)))⟩

/-! ### The raster model (PIL images as used on lines 70–79) -/

/-- A PIL raster: its dimensions together with which pixels count as
nonzero for `Image.getbbox`. -/
structure Raster where
  width : Nat
  height : Nat
  pixel : Nat → Nat → Bool

/-- Coordinates of the nonzero pixels of a raster, in scan order. -/
def nonzeroPts (r : Raster) : List (Nat × Nat) :=
  (List.range r.width).flatMap (fun x =>
    (List.range r.height).filterMap (fun y =>
      if r.pixel x y then some (x, y) else none))

/-- PIL `Image.getbbox`: the smallest `(left, upper, right, lower)` box
containing every nonzero pixel (right and lower exclusive), `none` for an
image with no nonzero pixel. -/
def getbbox (r : Raster) : Option (Nat × Nat × Nat × Nat) :=
  match nonzeroPts r with
  | [] => none
  | p :: ps =>
    some ((p :: ps).foldl (fun m q => min m q.1) p.1,
          (p :: ps).foldl (fun m q => min m q.2) p.2,
          (p :: ps).foldl (fun m q => max m q.1) p.1 + 1,
          (p :: ps).foldl (fun m q => max m q.2) p.2 + 1)

/-- PIL `Image.crop`: with box `None` the whole image is copied; with a box
the result has size `(right - left, lower - upper)`. -/
def crop (r : Raster) (box : Option (Nat × Nat × Nat × Nat)) : Raster :=
  match box with
  | none => r
  | some (l, u, rt, lo) =>
    ⟨rt - l, lo - u, fun x y =>
      if x + l < r.width && y + u < r.height then r.pixel (x + l) (y + u)
      else false⟩

/-- Python `round` on an exact nonnegative quotient `num / den`:
round-half-to-even. -/
def pyRound (num den : Nat) : Nat :=
  let q := num / den
  let r := num % den
  if 2 * r < den then q
  else if den < 2 * r then q + 1
  else if q % 2 = 0 then q else q + 1

/-- mosaic.py lines 74–77, acting on a `(width, height)` size.  Python's
`if downsample:` is false for both `None` and `0`.  The code destructures
`height, width = new_png.size` although PIL's `size` is `(width, height)`,
then passes `(round(height / f), round(width / f))` to `resize`, which also
takes `(width, height)` — the two swaps cancel. -/
def downsampleStep (size : Nat × Nat) (downsample : Option Nat) : Nat × Nat :=
  match downsample with
  | none => size
  | some f =>
    if f = 0 then size
    else
      let height := size.1
      let width := size.2
      (pyRound height f, pyRound width f)

/-! ### The rendering pipeline (events, create_slice_img, the two scanners) -/

/-- Outcome of `nb.load` on one path (the volumetric decoder is an opaque
collaborator): success, a `FileNotFoundError`, or any other exception such
as nibabel's `ImageFileError` on an unreadable file. -/
inductive LoadResult where
  | ok : LoadResult
  | fileNotFound : LoadResult
  | otherError (msg : String) : LoadResult
deriving DecidableEq

/-- The observable effects of a run, in order of occurrence. -/
inductive Event where
  | wrotePng (name : String)
  | loggedError (path : String)
  | wroteDoc (path : String)
  | cleanedTemp
deriving DecidableEq

/-- Result of one `create_slice_img` call: the events it produced, the
exception it escalated (if any), and the png it wrote (name and final
`(width, height)` size). -/
structure SliceResult where
  events : List Event
  error : Option String
  written : Option (String × (Nat × Nat))
deriving DecidableEq

/-- mosaic.py `create_slice_img`.  `loaded` is the outcome of `nb.load`
(only `FileNotFoundError` is caught: it is logged and the call returns
without output; any other exception escalates).  The output name uses the
path relative to `ds_path` with `'/'` replaced by `':'` only when the
`ds_root` keyword is supplied, otherwise just the basename.  `rendered` is
the raster written by `plot_img`/`savefig` (opaque collaborators); it is
cropped to its nonzero bounding box and optionally downsampled. -/
def create_slice_img (loaded : LoadResult) (img_path : String)
    (ds_path : String) (rendered : Raster) (ds_root : Option String)
    (downsample : Option Nat) : SliceResult :=
  match loaded with
  | .fileNotFound => ⟨[.loggedError img_path], none, none⟩
  | .otherError e => ⟨[], some e, none⟩
  | .ok =>
    let out_file : String :=
      match ds_root with
      | some _ => ⟨encodeRel (relpathFrom img_path.data ds_path.data)⟩
      | none => ⟨basenameChars img_path.data ++ pngExt⟩
    let cropped := crop rendered (getbbox rendered)
    let finalSize := downsampleStep (cropped.width, cropped.height) downsample
    ⟨[.wrotePng out_file], none, some (out_file, finalSize)⟩

/-- mosaic.py `create_anat_images`: render every file the layout reports
into the "Anatomical" directory.  The call on line 227 passes `layout.root`
positionally as `ds_path` but leaves the `ds_root` keyword at its default
`None`, so the basename branch names the outputs.  Returns the event trace,
the first escalated error (which aborts the loop), and the names written so
far. -/
def create_anat_images (load : String → LoadResult) (render : String → Raster)
    (files : List String) (root : String) (downsample : Option Nat) :
    List Event × Option String × List String :=
  match files with
  | [] => ([], none, [])
  | f :: fs =>
    let r := create_slice_img (load f) f root (render f) none downsample
    match r.error with
    | some e => (r.events, some e, [])
    | none =>
      let rest := create_anat_images load render fs root downsample
      (r.events ++ rest.1, rest.2.1,
        (match r.written with | some (n, _) => [n] | none => []) ++ rest.2.2)

/-- mosaic.py `create_fs_images`: render every `sub-*/mri/orig/*` match
(passed in as `files`) into the "Freesurfer" directory; here `ds_root` is
supplied, so outputs are named from the path relative to `fs_dir`. -/
def create_fs_images (load : String → LoadResult) (render : String → Raster)
    (files : List String) (fsDir : String) (downsample : Option Nat) :
    List Event × Option String × List String :=
  match files with
  | [] => ([], none, [])
  | f :: fs =>
    let r := create_slice_img (load f) f fsDir (render f) (some fsDir) downsample
    match r.error with
    | some e => (r.events, some e, [])
    | none =>
      let rest := create_fs_images load render fs fsDir downsample
      (r.events ++ rest.1, rest.2.1,
        (match r.written with | some (n, _) => [n] | none => []) ++ rest.2.2)

/-! ### The report assembler (create_mosaic_table, create_pdf) -/

/-- Width available inside the letter-size `SimpleDocTemplate`:
`int(pdf.width)` with the 18-point side margins of mosaic.py, 612-18-18. -/
def page_width : Nat := 576

/-- Python's string order: lexicographic by code point, i.e. the order of
the underlying character lists (equivalent to `String`'s own `≤` by
`String.le_iff_toList_le`, but stated on the data so it computes). -/
def pyLe (a b : String) : Prop := a.data ≤ b.data

instance : DecidableRel pyLe := fun a b =>
  inferInstanceAs (Decidable (a.data ≤ b.data))

instance : IsTotal String pyLe := ⟨fun a b => le_total a.data b.data⟩

instance : IsTrans String pyLe := ⟨fun _ _ _ h1 h2 => le_trans h1 h2⟩

instance : IsAntisymm String pyLe :=
  ⟨fun a b h1 h2 => by
    cases a; cases b
    exact congrArg String.mk (le_antisymm h1 h2)⟩

/-- Model of Python's `sorted` on strings: the `pyLe`-sorted permutation of
the input, which is unique because the order is total. -/
def sortStrings (l : List String) : List String :=
  List.insertionSort pyLe l

/-- Python `[l[i:i+n] for i in range(0, len(l), n)]` for a step `n ≥ 1`,
written with explicit fuel so it computes by kernel reduction. -/
def chunkAux (fuel n : Nat) (l : List String) : List (List String) :=
  match fuel, l with
  | 0, _ => []
  | _ + 1, [] => []
  | f + 1, x :: xs => ((x :: xs).take n) :: chunkAux f n ((x :: xs).drop n)

/-- Rows of `n` cells each, in order. -/
def chunkList (n : Nat) (l : List String) : List (List String) :=
  chunkAux l.length n l

/-- mosaic.py `create_mosaic_table`: sort the directory listing, build one
cell per png, read the first cell's width (an `IndexError` when the
directory is empty), compute the column count from the page width (a
`ZeroDivisionError` at the `col_width` line when the first thumbnail is
wider than the page), and chunk the cells into rows.  `imgWidth` gives the
reportlab `Image` width of each png (`(80 / h) * w` from
`create_sized_img`, an opaque float computation on the decoded raster);
cells are identified here by their png name. -/
def create_mosaic_table (imgWidth : String → Nat) (names : List String)
    (pw : Nat) : Except String (List (List String)) :=
  match sortStrings names with
  | [] => .error ("IndexError: list index out of range")
  | first :: rest =>
    if pw / imgWidth first = 0 then
      .error ("ZeroDivisionError: division by zero")
    else .ok (chunkList (pw / imgWidth first) (first :: rest))

/-- mosaic.py `create_metadata_table`: `json.loads` then `dict.items`;
`parse` stands for that opaque combination, `none` when it raises. -/
def create_metadata_table (parse : String → Option (List (String × String)))
    (metadata : String) : Except String (List (String × String)) :=
  match parse metadata with
  | none => .error ("json.decoder.JSONDecodeError")
  | some items => .ok items

/-- The per-category tables of `create_pdf`'s loop, in order, stopping at
the first exception. -/
def buildTables (imgWidth : String → Nat) (pw : Nat) :
    List (String × List String) →
    Except String (List (String × List (List String)))
  | [] => .ok []
  | (name, files) :: rest =>
    match create_mosaic_table imgWidth files pw with
    | .error e => .error e
    | .ok t =>
      match buildTables imgWidth pw rest with
      | .error e => .error e
      | .ok ts => .ok ((name, t) :: ts)

/-- mosaic.py `create_pdf`: one section per category directory, then the
optional metadata table — note `if metadata:` is false for the empty
string, which therefore skips the table — and finally `pdf.build`, the
only step that writes the output file. -/
def create_pdf (imgWidth : String → Nat)
    (parse : String → Option (List (String × String)))
    (categories : List (String × List String)) (out_path : String)
    (metadata : Option String) : List Event × Option String :=
  match buildTables imgWidth page_width categories with
  | .error e => ([], some e)
  | .ok _ =>
    match metadata with
    | some m =>
      if m = ("" : String) then ([.wroteDoc out_path], none)
      else
        match create_metadata_table parse m with
        | .error e => ([], some e)
        | .ok _ => ([.wroteDoc out_path], none)
    | none => ([.wroteDoc out_path], none)

/-- Outcome of a whole run: its event trace and the exception that ended
it, if any. -/
structure RunResult where
  events : List Event
  error : Option String
deriving DecidableEq

/-- mosaic.py `create_mosaic_pdf`.  A temporary png directory is used when
`png_out_dir` is `None`; the `cleanup()` call sits after `create_pdf` with
no try/finally, so it is reached only when no earlier step raised.  The
model takes the scanner results (`anatFiles` from the layout query,
`fsFiles` from the freesurfer glob) as inputs and assumes the png
directory starts empty, so the category directories are exactly the ones
this run creates; each directory lists every written name once. -/
def create_mosaic_pdf (load : String → LoadResult) (render : String → Raster)
    (imgWidth : String → Nat)
    (parse : String → Option (List (String × String)))
    (anatFiles : List String) (fsFiles : List String) (dataset : String)
    (out_file : String) (anat : Bool) (png_out_dir : Option String)
    (downsample : Option Nat) (freesurfer : Option String)
    (metadata : Option String) : RunResult :=
  let anatStep :=
    if anat then create_anat_images load render anatFiles dataset downsample
    else ([], none, [])
  match anatStep with
  | (ev1, some e, _) => ⟨ev1, some e⟩
  | (ev1, none, anatPngs) =>
    let fsStep :=
      match freesurfer with
      | some fsDir => create_fs_images load render fsFiles fsDir downsample
      | none => ([], none, [])
    match fsStep with
    | (ev2, some e, _) => ⟨ev1 ++ ev2, some e⟩
    | (ev2, none, fsPngs) =>
      let categories :=
        (if anat then [(("Anatomical" : String), anatPngs.eraseDups)] else []) ++
        (match freesurfer with
         | some _ => [(("Freesurfer" : String), fsPngs.eraseDups)]
         | none => [])
      match create_pdf imgWidth parse categories out_file metadata with
      | (ev3, some e) => ⟨ev1 ++ ev2 ++ ev3, some e⟩
      | (ev3, none) =>
        ⟨ev1 ++ ev2 ++ ev3 ++
          (if png_out_dir.isNone then [.cleanedTemp] else []), none⟩

/-! ### Concrete collaborators used by witnesses and counterexamples -/

/-- A raster with no nonzero pixel. -/
def dummyRaster : Raster := ⟨0, 0, fun _ _ => false⟩

/-- A 3×3 raster whose only nonzero pixel is the centre. -/
def centerDot : Raster := ⟨3, 3, fun x y => x == 1 && y == 1⟩

/-! ### Downsampling (claims C7 and C10) -/

/-- Python's `round` lands within half a unit of the exact quotient:
`|num/den - pyRound num den| ≤ 1/2`, stated over naturals. -/
theorem pyRound_nearest (w f : Nat) (hf : 0 < f) :
    2 * Nat.dist (f * pyRound w f) w ≤ f := by
  have hm : f * (w / f) + w % f = w := Nat.div_add_mod w f
  have hr : w % f < f := Nat.mod_lt _ hf
  have hstep : f * (w / f + 1) = f * (w / f) + f := by ring
  simp only [pyRound]
  split_ifs <;> simp only [Nat.dist] <;> omega

/-- Claim C7: for a cropped raster of size `(w, h)` and a positive factor
`f`, the resize step of `create_slice_img` produces exactly
`(round(w / f), round(h / f))` — the accidental swap of the names `height`
and `width` on line 75 cancels against the `(width, height)` order `resize`
expects — and each rounded axis is within half a unit of the exact
quotient. -/
theorem downsample_dims (w h f : Nat) (hf : 0 < f) :
    downsampleStep (w, h) (some f) = (pyRound w f, pyRound h f) ∧
    2 * Nat.dist (f * pyRound w f) w ≤ f ∧
    2 * Nat.dist (f * pyRound h f) h ≤ f := by
  refine ⟨?_, pyRound_nearest w f hf, pyRound_nearest h f hf⟩
  simp [downsampleStep, Nat.pos_iff_ne_zero.mp hf]

/-- Witness for `downsample_dims` at `(w, h) = (5, 3)`, `f = 2`. -/
theorem downsample_dims_witness :
    0 < 2 ∧
    (downsampleStep (5, 3) (some 2) = (pyRound 5 2, pyRound 3 2) ∧
      2 * Nat.dist (2 * pyRound 5 2) 5 ≤ 2 ∧
      2 * Nat.dist (2 * pyRound 3 2) 3 ≤ 2) :=
  ⟨by decide, downsample_dims 5 3 2 (by decide)⟩

/-- Claim C10: a downsample factor of `0` is falsy in Python, so the resize
branch is skipped entirely and the call behaves exactly as with no factor
at all; in particular the division by zero is unreachable. -/
theorem downsample_zero_noop (loaded : LoadResult) (p ds : String)
    (rendered : Raster) (root : Option String) :
    create_slice_img loaded p ds rendered root (some 0) =
      create_slice_img loaded p ds rendered root none := by
  cases loaded <;> simp [create_slice_img, downsampleStep]

/-! ### Cropping to the nonzero bounding box (claim C8) -/

theorem mem_nonzeroPts {r : Raster} {q : Nat × Nat} (h : q ∈ nonzeroPts r) :
    q.1 < r.width ∧ q.2 < r.height := by
  simp only [nonzeroPts, List.mem_flatMap, List.mem_filterMap,
    List.mem_range] at h
  obtain ⟨x, hx, y, hy, hq⟩ := h
  by_cases hp : r.pixel x y
  · simp only [hp, if_true, Option.some.injEq] at hq
    subst hq
    exact ⟨hx, hy⟩
  · simp [hp] at hq

theorem foldl_max_lt {l : List (Nat × Nat)} {b n : Nat}
    (f : Nat × Nat → Nat) (hb : b < n) (hl : ∀ q ∈ l, f q < n) :
    l.foldl (fun m q => max m (f q)) b < n := by
  induction l generalizing b with
  | nil => exact hb
  | cons a l ih =>
    rw [List.foldl_cons]
    exact ih (by have := hl a (List.mem_cons_self _ _); omega)
      (fun q hq => hl q (List.mem_cons_of_mem _ hq))

/-- Cropping to `getbbox` never enlarges an image, whatever the pixels. -/
theorem crop_getbbox_le (r : Raster) :
    (crop r (getbbox r)).width ≤ r.width ∧
    (crop r (getbbox r)).height ≤ r.height := by
  unfold getbbox
  cases hp : nonzeroPts r with
  | nil => exact ⟨le_refl _, le_refl _⟩
  | cons p ps =>
    have hmem : ∀ q ∈ p :: ps, q.1 < r.width ∧ q.2 < r.height :=
      fun q hq => mem_nonzeroPts (hp ▸ hq)
    have hw : (p :: ps).foldl (fun m q => max m q.1) p.1 < r.width :=
      foldl_max_lt Prod.fst (hmem p (List.mem_cons_self _ _)).1
        (fun q hq => (hmem q hq).1)
    have hh : (p :: ps).foldl (fun m q => max m q.2) p.2 < r.height :=
      foldl_max_lt Prod.snd (hmem p (List.mem_cons_self _ _)).2
        (fun q hq => (hmem q hq).2)
    simp only [crop]
    constructor <;> omega

/-- A raster whose whole border counts as zero for `getbbox` (the "fully
transparent border" of the claim). -/
def borderClear (r : Raster) : Prop :=
  ∀ x, x < r.width → ∀ y, y < r.height →
    (x = 0 ∨ y = 0 ∨ x + 1 = r.width ∨ y + 1 = r.height) →
      r.pixel x y = false

instance (r : Raster) : Decidable (borderClear r) := by
  unfold borderClear; infer_instance

/-- Claim C8: for a saved raster with a fully transparent border, cropping
to the tight bounding box of nonzero content yields dimensions no larger
than the original's — also when the whole raster is transparent, where
`getbbox` returns `None` and `crop(None)` copies the image unchanged. -/
theorem crop_transparent_border_le (r : Raster) (hborder : borderClear r) :
    (crop r (getbbox r)).width ≤ r.width ∧
    (crop r (getbbox r)).height ≤ r.height :=
  crop_getbbox_le r

/-- Witness for `crop_transparent_border_le` on a 3×3 centre-dot raster. -/
theorem crop_transparent_border_le_witness :
    borderClear centerDot ∧
    ((crop centerDot (getbbox centerDot)).width ≤ centerDot.width ∧
      (crop centerDot (getbbox centerDot)).height ≤ centerDot.height) :=
  ⟨by decide, crop_transparent_border_le centerDot (by decide)⟩

/-! ### Alphabetical layout of each category section (claim C9) -/

instance {ε α : Type} [DecidableEq ε] [DecidableEq α] :
    DecidableEq (Except ε α) := fun a b =>
  match a, b with
  | .ok x, .ok y =>
    if h : x = y then .isTrue (by rw [h])
    else .isFalse (by intro hh; injection hh; contradiction)
  | .error x, .error y =>
    if h : x = y then .isTrue (by rw [h])
    else .isFalse (by intro hh; injection hh; contradiction)
  | .ok _, .error _ => .isFalse (fun hh => Except.noConfusion hh)
  | .error _, .ok _ => .isFalse (fun hh => Except.noConfusion hh)

theorem flatten_chunkAux (fuel n : Nat) (l : List String) (hn : 0 < n)
    (hfuel : l.length ≤ fuel) : (chunkAux fuel n l).flatten = l := by
  induction fuel generalizing l with
  | zero =>
    have : l = [] := List.length_eq_zero.mp (by omega)
    subst this
    rfl
  | succ f ih =>
    cases l with
    | nil => rfl
    | cons x xs =>
      simp only [chunkAux, List.flatten_cons]
      have hlen : ((x :: xs).drop n).length ≤ f := by
        simp only [List.length_drop, List.length_cons]
        simp only [List.length_cons] at hfuel
        omega
      rw [ih ((x :: xs).drop n) hlen]
      exact List.take_append_drop n (x :: xs)

theorem flatten_chunkList (n : Nat) (l : List String) (hn : 0 < n) :
    (chunkList n l).flatten = l :=
  flatten_chunkAux l.length n l hn (le_refl _)

theorem sortStrings_sorted (l : List String) :
    (sortStrings l).Sorted pyLe :=
  List.sorted_insertionSort pyLe l

/-- A `pyLe`-sorted list is sorted for `String`'s own order as well. -/
theorem sorted_pyLe_to_le {l : List String} (h : l.Sorted pyLe) :
    l.Sorted (· ≤ ·) :=
  h.imp (fun hab => String.le_iff_toList_le.mpr hab)

theorem sortStrings_perm (l : List String) : (sortStrings l).Perm l :=
  List.perm_insertionSort pyLe l

theorem sortStrings_congr {l l2 : List String} (h : l.Perm l2) :
    sortStrings l = sortStrings l2 :=
  List.eq_of_perm_of_sorted
    ((sortStrings_perm l).trans (h.trans (sortStrings_perm l2).symm))
    (sortStrings_sorted l) (sortStrings_sorted l2)

/-- Claim C9: whenever `create_mosaic_table` succeeds, reading its rows left
to right and top to bottom gives the category's png names sorted
alphabetically — a permutation of the directory listing that is invariant
under the order in which the scanner discovered or the renderer produced
the files. -/
theorem mosaic_table_sorted (imgWidth : String → Nat) (names : List String)
    (pw : Nat) (rows : List (List String))
    (h : create_mosaic_table imgWidth names pw = .ok rows) :
    rows.flatten.Sorted (· ≤ ·) ∧ rows.flatten.Perm names ∧
    ∀ names2, names.Perm names2 →
      create_mosaic_table imgWidth names2 pw = .ok rows := by
  unfold create_mosaic_table at h
  split at h
  · exact Except.noConfusion h
  · rename_i first rest hs
    by_cases hc : pw / imgWidth first = 0
    · rw [if_pos hc] at h
      exact Except.noConfusion h
    · rw [if_neg hc] at h
      simp only [Except.ok.injEq] at h
      have hflat : rows.flatten = first :: rest := by
        rw [← h]
        exact flatten_chunkList (pw / imgWidth first) (first :: rest)
          (Nat.pos_of_ne_zero hc)
      refine ⟨?_, ?_, ?_⟩
      · rw [hflat, ← hs]; exact sorted_pyLe_to_le (sortStrings_sorted names)
      · rw [hflat, ← hs]; exact sortStrings_perm names
      · intro names2 hperm
        have hsort2 : sortStrings names2 = first :: rest := by
          rw [← sortStrings_congr hperm, hs]
        unfold create_mosaic_table
        split
        · rename_i hnil
          rw [hsort2] at hnil
          exact List.noConfusion hnil
        · rename_i f2 r2 heq
          rw [hsort2] at heq
          injection heq with h1 h2
          subst h1
          subst h2
          rw [if_neg hc, h]

/-- Witness for `mosaic_table_sorted` on a two-name directory listed out of
order. -/
theorem mosaic_table_sorted_witness :
    create_mosaic_table (fun _ => 100)
        [("b.png" : String), ("a.png" : String)] 576 =
      .ok [[("a.png" : String), ("b.png" : String)]] ∧
    ([[("a.png" : String), ("b.png" : String)]].flatten.Sorted (· ≤ ·) ∧
      [[("a.png" : String), ("b.png" : String)]].flatten.Perm
        [("b.png" : String), ("a.png" : String)] ∧
      ∀ names2,
        List.Perm [("b.png" : String), ("a.png" : String)] names2 →
        create_mosaic_table (fun _ => 100) names2 576 =
          .ok [[("a.png" : String), ("b.png" : String)]]) :=
  ⟨by decide, mosaic_table_sorted (fun _ => 100) _ 576 _ (by decide)⟩

/-! ### Event-shape lemmas for the pipeline stages -/

/-- A rendering-stage event: a png write or a logged skip, never a
document write or a cleanup. -/
def renderEvent (e : Event) : Prop :=
  (∃ n, e = Event.wrotePng n) ∨ (∃ n, e = Event.loggedError n)

theorem slice_events_shape (loaded : LoadResult) (p ds : String)
    (rendered : Raster) (root : Option String) (d : Option Nat) :
    ∀ e ∈ (create_slice_img loaded p ds rendered root d).events,
      renderEvent e := by
  intro e he
  cases loaded with
  | ok =>
    simp only [create_slice_img, List.mem_singleton] at he
    exact Or.inl ⟨_, he⟩
  | fileNotFound =>
    simp only [create_slice_img, List.mem_singleton] at he
    exact Or.inr ⟨_, he⟩
  | otherError m => simp [create_slice_img] at he

theorem anat_events_shape (load : String → LoadResult)
    (render : String → Raster) (files : List String) (root : String)
    (d : Option Nat) :
    ∀ e ∈ (create_anat_images load render files root d).1, renderEvent e := by
  induction files with
  | nil => simp [create_anat_images]
  | cons f fs ih =>
    intro e he
    simp only [create_anat_images] at he
    split at he
    · exact slice_events_shape _ _ _ _ _ _ e he
    · rcases List.mem_append.mp he with h1 | h2
      · exact slice_events_shape _ _ _ _ _ _ e h1
      · exact ih e h2

theorem fs_events_shape (load : String → LoadResult)
    (render : String → Raster) (files : List String) (fsDir : String)
    (d : Option Nat) :
    ∀ e ∈ (create_fs_images load render files fsDir d).1, renderEvent e := by
  induction files with
  | nil => simp [create_fs_images]
  | cons f fs ih =>
    intro e he
    simp only [create_fs_images] at he
    split at he
    · exact slice_events_shape _ _ _ _ _ _ e he
    · rcases List.mem_append.mp he with h1 | h2
      · exact slice_events_shape _ _ _ _ _ _ e h1
      · exact ih e h2

/-- `create_pdf` either succeeds having written exactly the document, or
fails having written nothing. -/
theorem create_pdf_events (imgWidth : String → Nat)
    (parse : String → Option (List (String × String)))
    (cats : List (String × List String)) (out : String)
    (meta : Option String) :
    ((create_pdf imgWidth parse cats out meta).2 = none ∧
      (create_pdf imgWidth parse cats out meta).1 = [Event.wroteDoc out]) ∨
    ((create_pdf imgWidth parse cats out meta).2 ≠ none ∧
      (create_pdf imgWidth parse cats out meta).1 = []) := by
  unfold create_pdf
  split
  · right; simp
  · split
    · split
      · left; simp
      · split
        · right; simp
        · left; simp
    · left; simp

/-- With a nonempty metadata string that does not parse, `create_pdf`
always fails: either an earlier table raised, or `json.loads` does. -/
theorem create_pdf_bad_metadata (imgWidth : String → Nat)
    (parse : String → Option (List (String × String)))
    (cats : List (String × List String)) (out : String) (m : String)
    (hm : m ≠ ("" : String)) (hp : parse m = none) :
    (create_pdf imgWidth parse cats out (some m)).2 ≠ none := by
  unfold create_pdf
  split
  · simp
  · simp only [create_metadata_table, hp, if_neg hm]
    simp

theorem renderEvent_ne_cleaned {e : Event} (h : renderEvent e) :
    e ≠ Event.cleanedTemp := by
  rcases h with ⟨n, rfl⟩ | ⟨n, rfl⟩ <;> intro hh <;> exact Event.noConfusion hh

theorem renderEvent_ne_doc {e : Event} (h : renderEvent e) :
    ∀ p, e ≠ Event.wroteDoc p := by
  rcases h with ⟨n, rfl⟩ | ⟨n, rfl⟩ <;> intro p hh <;> exact Event.noConfusion hh

/-- The three run-level facts, for a run that aborted during rendering. -/
theorem run_facts_of_error (ev : List Event) (er : String)
    (png metadata : Option String)
    (parse : String → Option (List (String × String)))
    (hev : ∀ x ∈ ev, renderEvent x) (R : RunResult)
    (hR : R = RunResult.mk ev (some er)) :
    (R.error ≠ none →
      Event.cleanedTemp ∉ R.events ∧ ∀ p, Event.wroteDoc p ∉ R.events) ∧
    (R.error = none → png = none → Event.cleanedTemp ∈ R.events) ∧
    (∀ m, metadata = some m → m ≠ ("" : String) → parse m = none →
      R.error ≠ none) := by
  subst hR
  refine ⟨fun _ => ⟨fun hmem => ?_, fun p hmem => ?_⟩,
    fun hcontr _ => Option.noConfusion hcontr, fun m _ _ _ => by simp⟩
  · exact renderEvent_ne_cleaned (hev _ hmem) rfl
  · exact renderEvent_ne_doc (hev _ hmem) p rfl

/-- The three run-level facts, for a run that reached the assembly phase:
the events are the two rendering traces followed by whatever `create_pdf`
produced, and the temp-directory cleanup happens only after a successful
`create_pdf`. -/
theorem run_tail_facts (pre1 pre2 : List Event)
    (h1 : ∀ e ∈ pre1, renderEvent e) (h2 : ∀ e ∈ pre2, renderEvent e)
    (imgWidth : String → Nat)
    (parse : String → Option (List (String × String)))
    (cats : List (String × List String)) (out : String)
    (metadata png : Option String) (R : RunResult)
    (hR : R = match create_pdf imgWidth parse cats out metadata with
      | (ev3, some e) => RunResult.mk (pre1 ++ pre2 ++ ev3) (some e)
      | (ev3, none) => RunResult.mk
          (pre1 ++ pre2 ++ ev3 ++
            (if png.isNone then [Event.cleanedTemp] else [])) none) :
    (R.error ≠ none →
      Event.cleanedTemp ∉ R.events ∧ ∀ p, Event.wroteDoc p ∉ R.events) ∧
    (R.error = none → png = none → Event.cleanedTemp ∈ R.events) ∧
    (∀ m, metadata = some m → m ≠ ("" : String) → parse m = none →
      R.error ≠ none) := by
  rcases hC : create_pdf imgWidth parse cats out metadata with ⟨ev3, err3⟩
  rw [hC] at hR
  cases err3 with
  | some e =>
    have hRe : R.events = pre1 ++ pre2 ++ ev3 := by rw [hR]
    have hRr : R.error = some e := by rw [hR]
    have hv : ev3 = [] := by
      rcases create_pdf_events imgWidth parse cats out metadata with
        ⟨hcE, _⟩ | ⟨_, hcV⟩
      · rw [hC] at hcE; exact absurd hcE (by simp)
      · rw [hC] at hcV; exact hcV
    subst hv
    refine ⟨fun _ => ⟨fun hmem => ?_, fun p hmem => ?_⟩,
      fun hcontr _ => ?_, fun m _ _ _ => by rw [hRr]; simp⟩
    · rw [hRe] at hmem
      simp only [List.append_nil, List.mem_append] at hmem
      rcases hmem with hm1 | hm2
      · exact renderEvent_ne_cleaned (h1 _ hm1) rfl
      · exact renderEvent_ne_cleaned (h2 _ hm2) rfl
    · rw [hRe] at hmem
      simp only [List.append_nil, List.mem_append] at hmem
      rcases hmem with hm1 | hm2
      · exact renderEvent_ne_doc (h1 _ hm1) p rfl
      · exact renderEvent_ne_doc (h2 _ hm2) p rfl
    · rw [hRr] at hcontr; exact Option.noConfusion hcontr
  | none =>
    have hRe : R.events = pre1 ++ pre2 ++ ev3 ++
        (if png.isNone then [Event.cleanedTemp] else []) := by rw [hR]
    have hRr : R.error = none := by rw [hR]
    refine ⟨fun hcontr => absurd hRr hcontr, fun _ hpng => ?_,
      fun m hmeta hm hp => ?_⟩
    · subst hpng
      rw [hRe]
      simp [List.mem_append]
    · subst hmeta
      have hbad := create_pdf_bad_metadata imgWidth parse cats out m hm hp
      rw [hC] at hbad
      exact absurd rfl hbad

/-- Combined run-level facts about `create_mosaic_pdf`: on an error exit no
cleanup and no document write happened; on a success with a temporary png
directory the cleanup ran; and a nonempty unparseable metadata string
forces an error exit. -/
theorem run_facts (load : String → LoadResult) (render : String → Raster)
    (imgWidth : String → Nat)
    (parse : String → Option (List (String × String)))
    (anatFiles fsFiles : List String) (dataset out : String) (anat : Bool)
    (png : Option String) (downsample : Option Nat)
    (freesurfer metadata : Option String) :
    ((create_mosaic_pdf load render imgWidth parse anatFiles fsFiles dataset
        out anat png downsample freesurfer metadata).error ≠ none →
      Event.cleanedTemp ∉ (create_mosaic_pdf load render imgWidth parse
        anatFiles fsFiles dataset out anat png downsample freesurfer
        metadata).events ∧
      ∀ p, Event.wroteDoc p ∉ (create_mosaic_pdf load render imgWidth parse
        anatFiles fsFiles dataset out anat png downsample freesurfer
        metadata).events) ∧
    ((create_mosaic_pdf load render imgWidth parse anatFiles fsFiles dataset
        out anat png downsample freesurfer metadata).error = none →
      png = none →
      Event.cleanedTemp ∈ (create_mosaic_pdf load render imgWidth parse
        anatFiles fsFiles dataset out anat png downsample freesurfer
        metadata).events) ∧
    (∀ m, metadata = some m → m ≠ ("" : String) → parse m = none →
      (create_mosaic_pdf load render imgWidth parse anatFiles fsFiles dataset
        out anat png downsample freesurfer metadata).error ≠ none) := by
  cases anat with
  | true =>
    rcases hA : create_anat_images load render anatFiles dataset downsample
      with ⟨ev1, err1, pngs1⟩
    have h1 : ∀ e ∈ ev1, renderEvent e := by
      have hh := anat_events_shape load render anatFiles dataset downsample
      rw [hA] at hh
      exact hh
    cases err1 with
    | some e =>
      exact run_facts_of_error ev1 e png metadata parse h1 _
        (by dsimp only [create_mosaic_pdf]; rw [hA]; rfl)
    | none =>
      cases freesurfer with
      | none =>
        exact run_tail_facts ev1 [] h1 (by simp) imgWidth parse
          [(("Anatomical" : String), pngs1.eraseDups)] out metadata png _
          (by dsimp only [create_mosaic_pdf]; rw [hA]; rfl)
      | some fsDir =>
        rcases hB : create_fs_images load render fsFiles fsDir downsample
          with ⟨ev2, err2, pngs2⟩
        have h2 : ∀ e ∈ ev2, renderEvent e := by
          have hh := fs_events_shape load render fsFiles fsDir downsample
          rw [hB] at hh
          exact hh
        cases err2 with
        | some e =>
          exact run_facts_of_error (ev1 ++ ev2) e png metadata parse
            (fun x hx => (List.mem_append.mp hx).elim (h1 x) (h2 x)) _
            (by dsimp only [create_mosaic_pdf]; rw [hA, hB]; rfl)
        | none =>
          exact run_tail_facts ev1 ev2 h1 h2 imgWidth parse
            [(("Anatomical" : String), pngs1.eraseDups),
             (("Freesurfer" : String), pngs2.eraseDups)] out metadata png _
            (by dsimp only [create_mosaic_pdf]; rw [hA, hB]; rfl)
  | false =>
    cases freesurfer with
    | none =>
      exact run_tail_facts [] [] (by simp) (by simp) imgWidth parse [] out
        metadata png _ rfl
    | some fsDir =>
      rcases hB : create_fs_images load render fsFiles fsDir downsample
        with ⟨ev2, err2, pngs2⟩
      have h2 : ∀ e ∈ ev2, renderEvent e := by
        have hh := fs_events_shape load render fsFiles fsDir downsample
        rw [hB] at hh
        exact hh
      cases err2 with
      | some e =>
        exact run_facts_of_error ev2 e png metadata parse h2 _
          (by dsimp only [create_mosaic_pdf]; rw [hB]; rfl)
      | none =>
        exact run_tail_facts [] ev2 (by simp) h2 imgWidth parse
          [(("Freesurfer" : String), pngs2.eraseDups)] out metadata png _
          (by dsimp only [create_mosaic_pdf]; rw [hB]; rfl)

/-! ### Claim C3: lifetime of the temporary png directory -/

/-- Claim C3 counterexample: with no persistent png directory and a
metadata string the parser rejects, the assembly phase raises and
`create_mosaic_pdf` returns without ever reaching `temp_dir_obj.cleanup()`
— there is no try/finally around the call, so the error exit skips the
deletion the claim promises on every exit path. -/
theorem cleanup_skipped_on_error :
    (create_mosaic_pdf (fun _ => LoadResult.ok) (fun _ => dummyRaster)
        (fun _ => 100) (fun _ => none) [] [] ("ds") ("out.pdf") false none
        none none (some ("x"))).error =
      some ("json.decoder.JSONDecodeError") ∧
    Event.cleanedTemp ∉
      (create_mosaic_pdf (fun _ => LoadResult.ok) (fun _ => dummyRaster)
        (fun _ => 100) (fun _ => none) [] [] ("ds") ("out.pdf") false none
        none none (some ("x"))).events :=
  ⟨rfl, fun h => List.not_mem_nil _ h⟩

/-- Claim C3 (amended): when no png output directory is supplied, the
temporary directory's cleanup runs exactly on the success path — after a
successful assembly it is always invoked, while any error exit (a render
escalation or an assembly exception) returns before the cleanup call. -/
theorem cleanup_on_success_only (load : String → LoadResult)
    (render : String → Raster) (imgWidth : String → Nat)
    (parse : String → Option (List (String × String)))
    (anatFiles fsFiles : List String) (dataset out : String) (anat : Bool)
    (downsample : Option Nat) (freesurfer metadata : Option String) :
    ((create_mosaic_pdf load render imgWidth parse anatFiles fsFiles dataset
        out anat none downsample freesurfer metadata).error = none →
      Event.cleanedTemp ∈ (create_mosaic_pdf load render imgWidth parse
        anatFiles fsFiles dataset out anat none downsample freesurfer
        metadata).events) ∧
    ((create_mosaic_pdf load render imgWidth parse anatFiles fsFiles dataset
        out anat none downsample freesurfer metadata).error ≠ none →
      Event.cleanedTemp ∉ (create_mosaic_pdf load render imgWidth parse
        anatFiles fsFiles dataset out anat none downsample freesurfer
        metadata).events) := by
  obtain ⟨hE, hOk, _⟩ := run_facts load render imgWidth parse anatFiles
    fsFiles dataset out anat none downsample freesurfer metadata
  exact ⟨fun h => hOk h rfl, fun h => (hE h).1⟩

/-- Witness for `cleanup_on_success_only` on a successful one-file run. -/
theorem cleanup_on_success_only_witness :
    Event.cleanedTemp ∈ (create_mosaic_pdf (fun _ => LoadResult.ok)
      (fun _ => dummyRaster) (fun _ => 100) (fun _ => none)
      [("/ds/sub-01/anat/f.nii" : String)] [] ("ds") ("out.pdf") true none
      none none none).events :=
  (cleanup_on_success_only (fun _ => LoadResult.ok) (fun _ => dummyRaster)
    (fun _ => 100) (fun _ => none) [("/ds/sub-01/anat/f.nii" : String)] []
    ("ds") ("out.pdf") true none none none).1 rfl

/-! ### Claim C4: malformed metadata and the output document -/

/-- Claim C4 counterexample: the empty string is not parseable JSON, yet
`if metadata:` is false for `""`, so the metadata table is silently
skipped, the run succeeds, and the document is written — the run does not
fail as the claim requires of every unparseable metadata argument. -/
theorem empty_metadata_writes_doc :
    ((fun _ => (none : Option (List (String × String)))) ("") = none) ∧
    (create_mosaic_pdf (fun _ => LoadResult.ok) (fun _ => dummyRaster)
        (fun _ => 100) (fun _ => none) [] [] ("ds") ("out.pdf") false none
        none none (some (""))).error = none ∧
    Event.wroteDoc ("out.pdf") ∈
      (create_mosaic_pdf (fun _ => LoadResult.ok) (fun _ => dummyRaster)
        (fun _ => 100) (fun _ => none) [] [] ("ds") ("out.pdf") false none
        none none (some (""))).events := by
  refine ⟨rfl, rfl, ?_⟩
  show Event.wroteDoc ("out.pdf") ∈
    [Event.wroteDoc ("out.pdf"), Event.cleanedTemp]
  simp

/-- Claim C4 (amended): for every nonempty metadata argument that is not
parseable JSON, the run fails with an error, and no document is ever
written to the output path — the parse error (or an earlier table error)
occurs before `pdf.build`, the only step that writes the file. -/
theorem bad_metadata_fails_before_write (load : String → LoadResult)
    (render : String → Raster) (imgWidth : String → Nat)
    (parse : String → Option (List (String × String)))
    (anatFiles fsFiles : List String) (dataset out : String) (anat : Bool)
    (png : Option String) (downsample : Option Nat)
    (freesurfer : Option String) (m : String) (hm : m ≠ ("" : String))
    (hp : parse m = none) :
    (create_mosaic_pdf load render imgWidth parse anatFiles fsFiles dataset
        out anat png downsample freesurfer (some m)).error ≠ none ∧
    ∀ p, Event.wroteDoc p ∉ (create_mosaic_pdf load render imgWidth parse
        anatFiles fsFiles dataset out anat png downsample freesurfer
        (some m)).events := by
  obtain ⟨hE, _, hBad⟩ := run_facts load render imgWidth parse anatFiles
    fsFiles dataset out anat png downsample freesurfer (some m)
  have herr := hBad m rfl hm hp
  exact ⟨herr, (hE herr).2⟩

/-- Witness for `bad_metadata_fails_before_write` with metadata `"x"` and
a parser that rejects everything. -/
theorem bad_metadata_fails_before_write_witness :
    (create_mosaic_pdf (fun _ => LoadResult.ok) (fun _ => dummyRaster)
        (fun _ => 100) (fun _ => none) [] [] ("ds") ("out.pdf") false none
        none none (some ("x"))).error ≠ none ∧
    ∀ p, Event.wroteDoc p ∉
      (create_mosaic_pdf (fun _ => LoadResult.ok) (fun _ => dummyRaster)
        (fun _ => 100) (fun _ => none) [] [] ("ds") ("out.pdf") false none
        none none (some ("x"))).events :=
  bad_metadata_fails_before_write (fun _ => LoadResult.ok)
    (fun _ => dummyRaster) (fun _ => 100) (fun _ => none) [] [] ("ds")
    ("out.pdf") false none none none ("x") (by decide) rfl

/-! ### Claim C1: a dataset with zero anatomical files -/

/-- Claim C1 counterexample: with anatomical mode enabled and no anatomical
files, the run does not complete — `create_mosaic_table` raises an
`IndexError` reading the first cell of the empty "Anatomical" directory. -/
theorem emptyAnat_errors_example :
    (create_mosaic_pdf (fun _ => LoadResult.ok) (fun _ => dummyRaster)
        (fun _ => 100) (fun _ => none) [] [] ("ds") ("out.pdf") true none
        none none none).error =
      some ("IndexError: list index out of range") := rfl

/-- Claim C1 (amended): for every dataset with zero anatomical files,
running with anatomical mode enabled fails — the empty "Anatomical"
category directory is still created, and the assembler's
`image_tup_list[0]` then raises an `IndexError` — and no document is
written. -/
theorem emptyAnat_run_fails (load : String → LoadResult)
    (render : String → Raster) (imgWidth : String → Nat)
    (parse : String → Option (List (String × String)))
    (fsFiles : List String) (dataset out : String) (png : Option String)
    (downsample : Option Nat) (freesurfer metadata : Option String) :
    (create_mosaic_pdf load render imgWidth parse [] fsFiles dataset out
        true png downsample freesurfer metadata).error ≠ none ∧
    ∀ p, Event.wroteDoc p ∉ (create_mosaic_pdf load render imgWidth parse
        [] fsFiles dataset out true png downsample freesurfer
        metadata).events := by
  have herr : (create_mosaic_pdf load render imgWidth parse [] fsFiles
      dataset out true png downsample freesurfer metadata).error ≠ none := by
    cases freesurfer with
    | none => exact fun h => Option.noConfusion h
    | some fsDir =>
      rcases hB : create_fs_images load render fsFiles fsDir downsample
        with ⟨ev2, err2, pngs2⟩
      cases err2 with
      | some e =>
        intro h
        dsimp only [create_mosaic_pdf] at h
        rw [hB] at h
        exact Option.noConfusion h
      | none =>
        intro h
        dsimp only [create_mosaic_pdf] at h
        rw [hB] at h
        exact Option.noConfusion h
  obtain ⟨hE, _, _⟩ := run_facts load render imgWidth parse [] fsFiles
    dataset out true png downsample freesurfer metadata
  exact ⟨herr, (hE herr).2⟩

/-- Witness for `emptyAnat_run_fails` at a concrete instantiation. -/
theorem emptyAnat_run_fails_witness :
    (create_mosaic_pdf (fun _ => LoadResult.ok) (fun _ => dummyRaster)
        (fun _ => 100) (fun _ => none) [] [] ("ds2") ("o.pdf") true none
        none none none).error ≠ none ∧
    ∀ p, Event.wroteDoc p ∉
      (create_mosaic_pdf (fun _ => LoadResult.ok) (fun _ => dummyRaster)
        (fun _ => 100) (fun _ => none) [] [] ("ds2") ("o.pdf") true none
        none none none).events :=
  emptyAnat_run_fails (fun _ => LoadResult.ok) (fun _ => dummyRaster)
    (fun _ => 100) (fun _ => none) [] ("ds2") ("o.pdf") none none none none

/-! ### Claim C5: unloadable input files -/

/-- Loader for the C5 counterexample: the first file exists but cannot be
decoded (nibabel raises an `ImageFileError`, not a `FileNotFoundError`). -/
def c5badload : String → LoadResult := fun p =>
  if p = ("/ds/a/f.nii" : String) then .otherError ("ImageFileError")
  else .ok

/-- Loader for the C5 witness: the first file is missing
(`FileNotFoundError`), the second loads fine. -/
def c5load : String → LoadResult := fun p =>
  if p = ("/ds/a/f.nii" : String) then .fileNotFound else .ok

/-- Claim C5 counterexample: a file the loader cannot open for any reason
other than absence is not logged and skipped — the exception escalates,
aborting the loop, and the remaining healthy file is never rendered.  Only
`FileNotFoundError` is caught on line 50. -/
theorem loader_error_escalates :
    (create_anat_images c5badload (fun _ => dummyRaster)
        [("/ds/a/f.nii" : String), ("/ds/b/g.nii" : String)] ("/ds")
        none).2.1 = some ("ImageFileError") ∧
    (create_anat_images c5badload (fun _ => dummyRaster)
        [("/ds/a/f.nii" : String), ("/ds/b/g.nii" : String)] ("/ds")
        none).1 = [] ∧
    Event.wrotePng ("g.nii.png") ∉
      (create_anat_images c5badload (fun _ => dummyRaster)
        [("/ds/a/f.nii" : String), ("/ds/b/g.nii" : String)] ("/ds")
        none).1 :=
  ⟨rfl, rfl, fun h => List.not_mem_nil _ h⟩

/-- The per-file contribution of the anatomical loop to the event trace: a
missing file leaves exactly its log entry, a loaded one exactly its png
write. -/
def anatFileTrace (load : String → LoadResult) (f : String) : List Event :=
  match load f with
  | LoadResult.fileNotFound => [Event.loggedError f]
  | _ => [Event.wrotePng ⟨basenameChars f.data ++ pngExt⟩]

/-- Claim C5 (amended): as long as no file raises an exception other than
`FileNotFoundError`, the anatomical loop never escalates, and its whole
event trace is the concatenation of the per-file traces — so a missing
file contributes only its logged error and no png write anywhere, i.e. it
is skipped without writing any output file, while every loadable file is
still rendered.  At the level of the single call, `create_slice_img` on a
missing file writes nothing (`written = none`) and produces exactly the
log event. -/
theorem missing_file_skipped (load : String → LoadResult)
    (render : String → Raster) (files : List String) (root : String)
    (d : Option Nat)
    (h : ∀ f ∈ files, ∀ e, load f ≠ LoadResult.otherError e) :
    (create_anat_images load render files root d).2.1 = none ∧
    (create_anat_images load render files root d).1 =
      files.flatMap (anatFileTrace load) ∧
    (∀ f ∈ files, load f = LoadResult.fileNotFound →
      (create_slice_img (load f) f root (render f) none d).written = none ∧
      (create_slice_img (load f) f root (render f) none d).events =
        [Event.loggedError f] ∧
      anatFileTrace load f = [Event.loggedError f] ∧
      Event.loggedError f ∈
        (create_anat_images load render files root d).1) ∧
    (∀ f ∈ files, load f = LoadResult.ok →
      Event.wrotePng ⟨basenameChars f.data ++ pngExt⟩ ∈
        (create_anat_images load render files root d).1) := by
  induction files with
  | nil => exact ⟨rfl, rfl, by simp, by simp⟩
  | cons f fs ih =>
    have hf : ∀ e, load f ≠ LoadResult.otherError e :=
      h f (List.mem_cons_self _ _)
    have hfs : ∀ g ∈ fs, ∀ e, load g ≠ LoadResult.otherError e :=
      fun g hg => h g (List.mem_cons_of_mem _ hg)
    obtain ⟨ih1, ih2, ih3, ih4⟩ := ih hfs
    cases hl : load f with
    | otherError e => exact absurd hl (hf e)
    | fileNotFound =>
      refine ⟨?_, ?_, ?_, ?_⟩
      · simp only [create_anat_images, hl, create_slice_img]
        exact ih1
      · simp only [create_anat_images, hl, create_slice_img,
          List.flatMap_cons, anatFileTrace]
        rw [ih2]
      · intro g hg hgl
        rcases List.mem_cons.mp hg with rfl | hg2
        · refine ⟨by simp [hgl, create_slice_img], by simp [hgl, create_slice_img], by simp [anatFileTrace, hgl], ?_⟩
          simp only [create_anat_images, hl, create_slice_img]
          exact List.mem_cons_self _ _
        · obtain ⟨hw, hse, htr, hmem⟩ := ih3 g hg2 hgl
          refine ⟨hw, hse, htr, ?_⟩
          simp only [create_anat_images, hl, create_slice_img]
          exact List.mem_cons_of_mem _ hmem
      · intro g hg hgl
        rcases List.mem_cons.mp hg with rfl | hg2
        · rw [hl] at hgl; exact LoadResult.noConfusion hgl
        · simp only [create_anat_images, hl, create_slice_img]
          exact List.mem_cons_of_mem _ (ih4 g hg2 hgl)
    | ok =>
      refine ⟨?_, ?_, ?_, ?_⟩
      · simp only [create_anat_images, hl, create_slice_img]
        exact ih1
      · simp only [create_anat_images, hl, create_slice_img,
          List.flatMap_cons, anatFileTrace]
        rw [ih2]
      · intro g hg hgl
        rcases List.mem_cons.mp hg with rfl | hg2
        · rw [hl] at hgl; exact LoadResult.noConfusion hgl
        · obtain ⟨hw, hse, htr, hmem⟩ := ih3 g hg2 hgl
          refine ⟨hw, hse, htr, ?_⟩
          simp only [create_anat_images, hl, create_slice_img]
          exact List.mem_cons_of_mem _ hmem
      · intro g hg hgl
        rcases List.mem_cons.mp hg with rfl | hg2
        · simp only [create_anat_images, hl, create_slice_img]
          exact List.mem_cons_self _ _
        · simp only [create_anat_images, hl, create_slice_img]
          exact List.mem_cons_of_mem _ (ih4 g hg2 hgl)

/-- Witness for `missing_file_skipped`: one missing file, one healthy
file; the missing one is logged and writes nothing — the trace holds
exactly one log entry and one png write, the healthy file's — and the
healthy one is still rendered. -/
theorem missing_file_skipped_witness :
    (create_anat_images c5load (fun _ => dummyRaster)
        [("/ds/a/f.nii" : String), ("/ds/b/g.nii" : String)] ("/ds")
        none).2.1 = none ∧
    (create_anat_images c5load (fun _ => dummyRaster)
        [("/ds/a/f.nii" : String), ("/ds/b/g.nii" : String)] ("/ds")
        none).1 =
      [("/ds/a/f.nii" : String), ("/ds/b/g.nii" : String)].flatMap
        (anatFileTrace c5load) ∧
    (∀ f ∈ [("/ds/a/f.nii" : String), ("/ds/b/g.nii" : String)],
      c5load f = LoadResult.fileNotFound →
      (create_slice_img (c5load f) f ("/ds")
        (dummyRaster) none none).written = none ∧
      (create_slice_img (c5load f) f ("/ds")
        (dummyRaster) none none).events = [Event.loggedError f] ∧
      anatFileTrace c5load f = [Event.loggedError f] ∧
      Event.loggedError f ∈ (create_anat_images c5load (fun _ => dummyRaster)
        [("/ds/a/f.nii" : String), ("/ds/b/g.nii" : String)] ("/ds")
        none).1) ∧
    (∀ f ∈ [("/ds/a/f.nii" : String), ("/ds/b/g.nii" : String)],
      c5load f = LoadResult.ok →
      Event.wrotePng ⟨basenameChars f.data ++ pngExt⟩ ∈
        (create_anat_images c5load (fun _ => dummyRaster)
          [("/ds/a/f.nii" : String), ("/ds/b/g.nii" : String)] ("/ds")
          none).1) :=
  missing_file_skipped c5load (fun _ => dummyRaster)
    [("/ds/a/f.nii" : String), ("/ds/b/g.nii" : String)] ("/ds") none
    (by intro f hf e; fin_cases hf <;> simp [c5load])

/-! ### String lemmas for the filename round trip (claims C2 and C6) -/

theorem replChar_append (a b : Char) (p q : List Char) :
    replChar a b (p ++ q) = replChar a b p ++ replChar a b q :=
  List.map_append _ _ _

theorem replChar_of_not_mem {a : Char} (b : Char) {c : List Char}
    (h : a ∉ c) : replChar a b c = c := by
  induction c with
  | nil => rfl
  | cons x xs ih =>
    simp only [replChar, List.map_cons] at *
    rw [if_neg (by rintro rfl; exact h (List.mem_cons_self _ _)),
      ih (fun hh => h (List.mem_cons_of_mem _ hh))]

theorem intercalate_cons2 (s c d : List Char) (cs : List (List Char)) :
    List.intercalate s (c :: d :: cs) =
      c ++ s ++ List.intercalate s (d :: cs) := by
  simp [List.intercalate, List.intersperse_cons_cons, List.append_assoc]

theorem intercalate_single (s c : List Char) :
    List.intercalate s [c] = c := by
  simp [List.intercalate]

/-- Replacing the separator inside a separator-free component list renames
exactly the separators. -/
theorem repl_intercalate (a b : Char) (cs : List (List Char))
    (h : ∀ c ∈ cs, a ∉ c) :
    replChar a b (List.intercalate [a] cs) = List.intercalate [b] cs := by
  induction cs with
  | nil => rfl
  | cons c cs ih =>
    cases cs with
    | nil =>
      rw [intercalate_single, intercalate_single]
      exact replChar_of_not_mem b (h c (List.mem_cons_self _ _))
    | cons d ds =>
      rw [intercalate_cons2, intercalate_cons2, replChar_append,
        replChar_append, replChar_of_not_mem b (h c (List.mem_cons_self _ _)),
        ih (fun x hx => h x (List.mem_cons_of_mem _ hx))]
      simp [replChar]

theorem not_mem_intercalate {x : Char} {s : List Char}
    {cs : List (List Char)} (hs : x ∉ s) (h : ∀ c ∈ cs, x ∉ c) :
    x ∉ List.intercalate s cs := by
  induction cs with
  | nil => simp [List.intercalate]
  | cons c cs ih =>
    cases cs with
    | nil =>
      rw [intercalate_single]
      exact h c (List.mem_cons_self _ _)
    | cons d ds =>
      rw [intercalate_cons2]
      intro hmem
      rcases List.mem_append.mp hmem with h1 | h2
      · rcases List.mem_append.mp h1 with h3 | h4
        · exact h c (List.mem_cons_self _ _) h3
        · exact hs h4
      · exact ih (fun g hg => h g (List.mem_cons_of_mem _ hg)) h2

theorem basename_no_slash {s : List Char} (h : '/' ∉ s) :
    basenameChars s = s := by
  unfold basenameChars
  rw [List.takeWhile_eq_self_iff.mpr ?_, List.reverse_reverse]
  intro x hx
  simp only [ne_eq, decide_eq_true_eq]
  rintro rfl
  exact h (List.mem_reverse.mp hx)

/-- Appending text to the last component of a component list, as path
concatenation does. -/
def appendLast (cs : List (List Char)) (t : List Char) : List (List Char) :=
  match cs with
  | [] => [t]
  | [c] => [c ++ t]
  | c :: d :: ds => c :: appendLast (d :: ds) t

theorem appendLast_ne_nil (cs : List (List Char)) (t : List Char) :
    appendLast cs t ≠ [] := by
  cases cs with
  | nil => simp [appendLast]
  | cons c cs =>
    cases cs with
    | nil => simp [appendLast]
    | cons d ds => simp [appendLast]

theorem intercalate_appendLast (s t : List Char) (cs : List (List Char)) :
    List.intercalate s cs ++ t = List.intercalate s (appendLast cs t) := by
  induction cs with
  | nil => simp [appendLast, List.intercalate]
  | cons c cs ih =>
    cases cs with
    | nil => simp [appendLast, intercalate_single]
    | cons d ds =>
      obtain ⟨e, es, he⟩ : ∃ e es, appendLast (d :: ds) t = e :: es := by
        cases hh : appendLast (d :: ds) t with
        | nil => exact absurd hh (appendLast_ne_nil _ _)
        | cons e es => exact ⟨e, es, rfl⟩
      calc List.intercalate s (c :: d :: ds) ++ t
          = c ++ s ++ (List.intercalate s (d :: ds) ++ t) := by
            rw [intercalate_cons2]; simp [List.append_assoc]
        _ = c ++ s ++ List.intercalate s (appendLast (d :: ds) t) := by
            rw [ih]
        _ = List.intercalate s (c :: appendLast (d :: ds) t) := by
            rw [he, intercalate_cons2]
        _ = List.intercalate s (appendLast (c :: d :: ds) t) := rfl

theorem normStep_keeps (acc : List (List Char)) (c : List Char)
    (hc : c ≠ [] ∧ c ≠ ['.'] ∧ c ≠ ['.', '.']) :
    normStep acc c = acc ++ [c] := by
  unfold normStep
  rw [if_neg (by tauto), if_neg hc.2.2]

theorem foldl_normStep (cs : List (List Char))
    (h : ∀ c ∈ cs, c ≠ [] ∧ c ≠ ['.'] ∧ c ≠ ['.', '.']) :
    ∀ acc, cs.foldl normStep acc = acc ++ cs := by
  induction cs with
  | nil => simp
  | cons c cs ih =>
    intro acc
    rw [List.foldl_cons, normStep_keeps acc c (h c (List.mem_cons_self _ _)),
      ih (fun g hg => h g (List.mem_cons_of_mem _ hg))]
    simp

/-- `os.path.relpath` leaves an already-normalised relative path alone. -/
theorem relpathNorm_id (ds : List (List Char)) (hne : ds ≠ [])
    (h : ∀ c ∈ ds, c ≠ [] ∧ '/' ∉ c ∧ c ≠ ['.'] ∧ c ≠ ['.', '.']) :
    relpathNorm (List.intercalate ['/'] ds) = List.intercalate ['/'] ds := by
  unfold relpathNorm
  rw [List.splitOn_intercalate ds '/' (fun l hl => (h l hl).2.1) hne,
    foldl_normStep ds (fun c hc => ⟨(h c hc).1, (h c hc).2.2⟩) []]
  simp [hne]

theorem removeSuffix_append (s p : List Char) :
    removeSuffix s (p ++ s) = p := by
  unfold removeSuffix
  have hlen : (p ++ s).length - s.length = p.length := by simp
  rw [if_pos ⟨by simp, by rw [hlen]; exact List.drop_left p s⟩, hlen]
  exact List.take_left p s

/-- A component of a path relative to the dataset root, as `os.path.relpath`
produces them: nonempty, free of both the separator and the sentinel, and
not one of the special entries `"."` and `".."`. -/
def goodComp (c : List Char) : Prop :=
  c ≠ [] ∧ '/' ∉ c ∧ ':' ∉ c ∧ c ≠ ['.'] ∧ c ≠ ['.', '.']

instance (c : List Char) : Decidable (goodComp c) := by
  unfold goodComp; infer_instance

theorem appendLast_good (cs : List (List Char)) (h : ∀ c ∈ cs, goodComp c) :
    ∀ c ∈ appendLast cs pngExt,
      c ≠ [] ∧ '/' ∉ c ∧ c ≠ ['.'] ∧ c ≠ ['.', '.'] := by
  induction cs with
  | nil =>
    intro c hc
    simp only [appendLast, List.mem_singleton] at hc
    subst hc
    refine ⟨by decide, by decide, by decide, by decide⟩
  | cons c cs ih =>
    cases cs with
    | nil =>
      intro x hx
      simp only [appendLast, List.mem_singleton] at hx
      subst hx
      obtain ⟨h1, h2, _, _, _⟩ := h c (List.mem_cons_self _ _)
      refine ⟨?_, ?_, ?_, ?_⟩
      · intro hh
        have hlen := congrArg List.length hh
        simp [pngExt] at hlen
      · intro hmem
        rcases List.mem_append.mp hmem with hm | hm
        · exact h2 hm
        · revert hm; decide
      · intro hh
        have hlen := congrArg List.length hh
        simp [pngExt] at hlen
      · intro hh
        have hlen := congrArg List.length hh
        simp [pngExt] at hlen
    | cons d ds =>
      intro x hx
      rw [show appendLast (c :: d :: ds) pngExt =
        c :: appendLast (d :: ds) pngExt from rfl] at hx
      rcases List.mem_cons.mp hx with rfl | hx2
      · obtain ⟨h1, h2, _, h4, h5⟩ := h x (List.mem_cons_self _ _)
        exact ⟨h1, h2, h4, h5⟩
      · exact ih (fun g hg => h g (List.mem_cons_of_mem _ hg)) x hx2

/-- Claim C6 counterexample: the round trip is not lossless for every
relative path — a filename already containing the sentinel `':'` comes
back with the sentinel turned into a separator. -/
theorem colon_breaks_roundtrip :
    create_filename_caption ⟨encodeRel (("a:b" : String).data)⟩ =
      ("a/b" : String) ∧
    ("a/b" : String) ≠ ("a:b" : String) := by
  constructor
  · decide
  · decide

/-- Claim C6 (amended): for every relative path assembled from normalised
components that contain neither the separator nor the sentinel, encoding it
as the renderer does (separators to `':'`, `".png"` appended) and then
running the captioner's decoding (basename, `':'` to `'/'`,
`os.path.relpath`, `".png"` stripped) recovers the path exactly. -/
theorem caption_roundtrip (cs : List (List Char)) (hne : cs ≠ [])
    (h : ∀ c ∈ cs, goodComp c) :
    create_filename_caption ⟨encodeRel (List.intercalate ['/'] cs)⟩ =
      ⟨List.intercalate ['/'] cs⟩ := by
  have hslash : ∀ c ∈ cs, '/' ∉ c := fun c hc => (h c hc).2.1
  have hcolon : ∀ c ∈ cs, ':' ∉ c := fun c hc => (h c hc).2.2.1
  have e1 : replChar '/' ':' (List.intercalate ['/'] cs) =
      List.intercalate [':'] cs := repl_intercalate '/' ':' cs hslash
  have e2 : '/' ∉ List.intercalate [':'] cs ++ pngExt := by
    intro hmem
    rcases List.mem_append.mp hmem with h1 | h2
    · exact not_mem_intercalate (by decide) hslash h1
    · revert h2; decide
  have e3 : basenameChars (List.intercalate [':'] cs ++ pngExt) =
      List.intercalate [':'] cs ++ pngExt := basename_no_slash e2
  have e4 : replChar ':' '/' (List.intercalate [':'] cs ++ pngExt) =
      List.intercalate ['/'] cs ++ pngExt := by
    rw [replChar_append, repl_intercalate ':' '/' cs hcolon,
      replChar_of_not_mem _ (by decide : ':' ∉ pngExt)]
  have e5 : List.intercalate ['/'] cs ++ pngExt =
      List.intercalate ['/'] (appendLast cs pngExt) :=
    intercalate_appendLast _ _ _
  have e6 : relpathNorm (List.intercalate ['/'] (appendLast cs pngExt)) =
      List.intercalate ['/'] (appendLast cs pngExt) :=
    relpathNorm_id _ (appendLast_ne_nil _ _) (appendLast_good cs h)
  refine congrArg String.mk ?_
  show removeSuffix pngExt (relpathNorm (replChar ':' '/'
    (basenameChars (replChar '/' ':' (List.intercalate ['/'] cs) ++
      pngExt)))) = List.intercalate ['/'] cs
  rw [e1, e3, e4, e5, e6, ← e5]
  exact removeSuffix_append pngExt (List.intercalate ['/'] cs)

/-- Witness for `caption_roundtrip` on the path `a/b.nii`. -/
theorem caption_roundtrip_witness :
    create_filename_caption
        ⟨encodeRel (List.intercalate ['/']
          [['a'], ['b', '.', 'n', 'i', 'i']])⟩ =
      ⟨List.intercalate ['/'] [['a'], ['b', '.', 'n', 'i', 'i']]⟩ :=
  caption_roundtrip [['a'], ['b', '.', 'n', 'i', 'i']] (by decide)
    (by decide)

/-! ### Claim C2: output filenames across subject directories -/

/-- Claim C2 counterexample: `create_anat_images` leaves the `ds_root`
keyword of `create_slice_img` at `None`, so anatomical outputs are named
by basename alone — two distinct files in different subject directories
are both written to `scan.nii.png`, the second overwriting the first. -/
theorem anat_basename_collision :
    ("/ds/sub-01/anat/scan.nii" : String) ≠
      ("/ds/sub-02/anat/scan.nii" : String) ∧
    (create_anat_images (fun _ => LoadResult.ok) (fun _ => dummyRaster)
        [("/ds/sub-01/anat/scan.nii" : String),
         ("/ds/sub-02/anat/scan.nii" : String)] ("/ds") none).2.2 =
      [("scan.nii.png" : String), ("scan.nii.png" : String)] := by
  exact ⟨by decide, by decide⟩

/-- Claim C2 (amended): only when a dataset root is supplied (the
freesurfer branch) is the output name derived from the relative path with
`'/'` replaced by `':'`; that encoding never collides — it is injective on
sentinel-free relative paths. -/
theorem encodeRel_injective (p q : List Char) (hp : ':' ∉ p) (hq : ':' ∉ q)
    (h : encodeRel p = encodeRel q) : p = q := by
  unfold encodeRel at h
  have hl : p.length = q.length := by
    have hlen := congrArg List.length h
    simp only [List.length_append, replChar, List.length_map] at hlen
    omega
  have h2 : replChar '/' ':' p = replChar '/' ':' q :=
    (List.append_inj h (by simp [replChar, hl])).1
  clear h hl
  induction p generalizing q with
  | nil =>
    cases q with
    | nil => rfl
    | cons b bs => exact List.noConfusion h2
  | cons a as ih =>
    cases q with
    | nil => exact List.noConfusion h2
    | cons b bs =>
      simp only [replChar, List.map_cons, List.cons.injEq] at h2
      obtain ⟨hab, hrest⟩ := h2
      have hp2 : ':' ∉ as := fun hh => hp (List.mem_cons_of_mem _ hh)
      have hq2 : ':' ∉ bs := fun hh => hq (List.mem_cons_of_mem _ hh)
      have hab2 : a = b := by
        by_cases ha : a = '/'
        · by_cases hb : b = '/'
          · rw [ha, hb]
          · rw [if_pos ha, if_neg hb] at hab
            exact absurd (show (':') ∈ b :: bs by
              rw [hab]; exact List.mem_cons_self _ _) hq
        · by_cases hb : b = '/'
          · rw [if_neg ha, if_pos hb] at hab
            exact absurd (show (':') ∈ a :: as by
              rw [← hab]; exact List.mem_cons_self _ _) hp
          · rw [if_neg ha, if_neg hb] at hab
            exact hab
      subst hab2
      exact congrArg (List.cons a) (ih bs hp2 hq2 hrest)

/-- Witness for `encodeRel_injective` on the path `sub-01/anat/x.nii`. -/
theorem encodeRel_injective_witness :
    ("sub-01/anat/x.nii" : String).data =
      ("sub-01/anat/x.nii" : String).data :=
  encodeRel_injective ("sub-01/anat/x.nii" : String).data
    ("sub-01/anat/x.nii" : String).data (by decide) (by decide) rfl

end BidsMosaic
